import Mathlib

/-!
Shallow embedding of the scarlett2 firmware management tool
(scarlett2-firmware.c and the main C source file) for checking its
natural-language specification.

Bytes are modelled as `Nat` (each < 256), byte buffers as `List Nat`,
C `int` values as `Int`.  Fallible C functions that return NULL or call
exit() are modelled with `Option` / `Except`.
-/

namespace Scarlett2

/-- Modelled from the spec: the fixed 8-byte ASCII magic tag
(`MAGIC_STRING` is defined in scarlett2-firmware.h, which is not under
src/; the spec only fixes that it is an 8-byte ASCII constant that must
match exactly, so a concrete 8-byte value is used).  ASCII "SCARLETT". -/
def MAGIC_STRING : List Nat := [83, 67, 65, 82, 76, 69, 84, 84]

/-- Focusrite USB vendor id (`VENDOR_VID` in the C source). -/
def VENDOR_VID : Nat := 0x1235

/-- Big-endian decoding of a byte list (`ntohs` / `ntohl` in `read_header`
convert the network-byte-order fields to host order). -/
def beNat (bs : List Nat) : Nat := bs.foldl (fun acc b => acc * 256 + b % 256) 0

/-- `struct scarlett2_firmware_header`: magic, vendor id (u16),
product id (u16), firmware version (u32), payload length (u32),
payload sha256 (32 bytes).  Layout per the firmware-file format table. -/
structure FirmwareHeader where
  magic : List Nat
  usb_vid : Nat
  usb_pid : Nat
  firmware_version : Nat
  firmware_length : Nat
  sha256 : List Nat
deriving Repr, DecidableEq

/-- Total size in bytes of the on-disk header. -/
def HEADER_SIZE : Nat := 52

/-- `read_header` (scarlett2-firmware.c): reads exactly the 52-byte header
region from the start of the file; a short read fails, a magic mismatch
fails; the multi-byte fields are converted from big-endian.  No other
field is validated. -/
def read_header (bytes : List Nat) : Option FirmwareHeader :=
  if bytes.length < HEADER_SIZE then none
  else if bytes.take 8 ≠ MAGIC_STRING then none
  else some {
    magic := bytes.take 8
    usb_vid := beNat ((bytes.drop 8).take 2)
    usb_pid := beNat ((bytes.drop 10).take 2)
    firmware_version := beNat ((bytes.drop 12).take 4)
    firmware_length := beNat ((bytes.drop 16).take 4)
    sha256 := (bytes.drop 20).take 32 }

/-- `scarlett2_read_firmware_header`: same as `read_header` on the file's
bytes (the surrounding code only opens the file and frees the buffer). -/
def scarlett2_read_firmware_header (bytes : List Nat) : Option FirmwareHeader :=
  read_header bytes

/-- `struct scarlett2_firmware_file`: a header plus the payload bytes. -/
structure FirmwareFile where
  header : FirmwareHeader
  firmware_data : List Nat
deriving Repr, DecidableEq

/-- `scarlett2_read_firmware_file`: reads the header, then exactly
`firmware_length` payload bytes (short read fails), then verifies the
SHA-256 digest of the payload against the stored hash (`verify_sha256`
compares the 32 digest bytes with memcmp).  The digest function itself
is OpenSSL's `SHA256`, an external library, so it is a parameter. -/
def scarlett2_read_firmware_file (digest : List Nat → List Nat)
    (bytes : List Nat) : Option FirmwareFile :=
  match read_header bytes with
  | none => none
  | some h =>
    let data := (bytes.drop HEADER_SIZE).take h.firmware_length
    if data.length ≠ h.firmware_length then none
    else if digest data ≠ h.sha256 then none
    else some ⟨h, data⟩

/-- The `scarlett2_supported` table: product ids in declaration order
(the `name` strings play no role in the modelled logic). -/
def scarlett2_supported : List Nat :=
  [0x8203, 0x8204, 0x8201, 0x8211, 0x8210, 0x8212, 0x8213, 0x8214,
   0x8215, 0x8218, 0x8219, 0x821a, 0x8206, 0x8207, 0x8208, 0x820a,
   0x820b, 0x820c]

/-- Position scan used by `get_device_for_pid`. -/
def find_pid_index : List Nat → Nat → Nat → Option Nat
  | [], _, _ => none
  | p :: rest, pid, i => if p = pid then some i else find_pid_index rest pid (i + 1)

/-- `get_device_for_pid`: returns the entry of `scarlett2_supported` with
the given product id, modelled by its index in the table; `none` models
the NULL pointer returned for an unrecognized product id. -/
def get_device_for_pid (pid : Nat) : Option Nat :=
  find_pid_index scarlett2_supported pid 0

/-- `struct found_firmware`: a file name (opaque id here) plus the parsed
header. -/
structure FoundFirmware where
  fn : Nat
  firmware : FirmwareHeader
deriving Repr, DecidableEq

/-- The duplicate test of `add_found_firmware`: same
(vendor id, product id, firmware version) triple. -/
def same_triple (a b : FirmwareHeader) : Bool :=
  a.usb_vid == b.usb_vid && a.usb_pid == b.usb_pid &&
    a.firmware_version == b.firmware_version

/-- `add_found_firmware`: entries of a foreign vendor are dropped; an
entry whose (vendor, product, version) triple is already cataloged is
dropped; otherwise the entry is appended at the end of the list. -/
def add_found_firmware (fws : List FoundFirmware) (fn : Nat)
    (fw : FirmwareHeader) : List FoundFirmware :=
  if fw.usb_vid ≠ VENDOR_VID then fws
  else if fws.any (fun f => same_triple f.firmware fw) then fws
  else fws ++ [⟨fn, fw⟩]

/-- The whole scan: every successfully parsed firmware header, in scan
order, folded through `add_found_firmware` starting from the empty
catalog (as `enum_firmware_dir` does over both directories). -/
def scan_firmwares (entries : List (Nat × FirmwareHeader)) : List FoundFirmware :=
  entries.foldl (fun acc e => add_found_firmware acc e.1 e.2) []

/-- The address of `&scarlett2_supported[i]` grows with `i`, and the NULL
pointer (numerically 0 on this platform) is below every element address;
`ptr_rank` maps `get_device_for_pid`'s result to that address order. -/
def ptr_rank : Option Nat → Nat
  | none => 0
  | some i => i + 1

/-- `found_firmware_cmp`, the qsort comparator: compares the addresses of
the supported-table entries for the two product ids (NULL, i.e. an
unknown product id, is numerically lowest), then the firmware versions,
newest first. -/
def found_firmware_cmp (a b : FoundFirmware) : Int :=
  let d1 := ptr_rank (get_device_for_pid a.firmware.usb_pid)
  let d2 := ptr_rank (get_device_for_pid b.firmware.usb_pid)
  if d1 < d2 then -1
  else if d2 < d1 then 1
  else if a.firmware.firmware_version < b.firmware.firmware_version then 1
  else if b.firmware.firmware_version < a.firmware.firmware_version then -1
  else 0

/-- The total preorder induced by the comparator. -/
def catalog_order (a b : FoundFirmware) : Prop := found_firmware_cmp a b ≤ 0

instance : DecidableRel catalog_order := fun a b =>
  Int.decLe (found_firmware_cmp a b) 0

/-- The sort in `enum_firmwares`: `qsort` with `found_firmware_cmp`,
modelled as a sort consistent with the comparator (the comparator never
returns 0 on cataloged entries of distinct position/version, and for
comparator-equal entries qsort leaves the order unspecified; the model
fixes one such order). -/
def enum_firmwares (fws : List FoundFirmware) : List FoundFirmware :=
  List.insertionSort catalog_order fws

/-- `struct sound_card`: the fields the update logic reads.
`firmware_version` is a C `int` (-1 when the ALSA control read failed). -/
structure SoundCard where
  card_num : Int
  pid : Nat
  firmware_version : Int
deriving Repr, DecidableEq

/-- Everything `exit(EXIT_FAILURE)` is reached for on the update paths. -/
inductive UpdateError
  | noDevice | multipleDevices | cardNotFound
  | noFirmware | upToDate | noMatchingVersion
  | loadFailed | pidMismatch
  | openFailed | protoReadFailed | unsupportedProtocol
  | eraseConfigFailed | eraseFirmwareFailed
  | pollFailed | progressBackwards | eraseTimeout | eraseInputExhausted
  | writeFailed | zeroWrite | writeInputExhausted
  | rebootFailed
deriving Repr, DecidableEq

/-- The errors raised during setup (device/firmware discovery, selection,
load, integrity and product-id checks), before any device command. -/
def UpdateError.isSetup : UpdateError → Bool
  | .noDevice | .multipleDevices | .cardNotFound => true
  | .noFirmware | .upToDate | .noMatchingVersion => true
  | .loadFailed | .pidMismatch => true
  | _ => false

/-- `check_card_selection`: no cards is fatal; with no `-c` option more
than one card is fatal, otherwise the first card's number is selected;
then the selected number is looked up in the found list. -/
def check_card_selection (cards : List SoundCard) (sel : Int) :
    Except UpdateError SoundCard :=
  match cards with
  | [] => .error .noDevice
  | c0 :: rest =>
    if sel = -1 ∧ rest ≠ [] then .error .multipleDevices
    else
      let sel2 := if sel = -1 then c0.card_num else sel
      match (c0 :: rest).find? (fun c => c.card_num == sel2) with
      | some c => .ok c
      | none => .error .cardNotFound

/-- `get_latest_firmware`: first catalog entry with the given product id
(the catalog is sorted newest-first per product, so first is latest). -/
def get_latest_firmware : List FoundFirmware → Nat → Option FoundFirmware
  | [], _ => none
  | ff :: rest, pid =>
    if ff.firmware.usb_pid = pid then some ff
    else get_latest_firmware rest pid

/-- `get_firmware_for_version`: first catalog entry with the given
product id and exact firmware version. -/
def get_firmware_for_version : List FoundFirmware → Nat → Nat → Option FoundFirmware
  | [], _, _ => none
  | ff :: rest, pid, ver =>
    if ff.firmware.usb_pid = pid ∧ ff.firmware.firmware_version = ver then some ff
    else get_firmware_for_version rest pid ver

/-- The C comparison `selected_card->firmware_version >=
ff->firmware->firmware_version` converts the `int` to `uint32_t`
(usual arithmetic conversions). -/
def uint32_conv (x : Int) : Nat := (x % 4294967296).toNat

/-- `check_firmware_selection`: with no requested version, take the first
catalog entry for the card's product id (none is fatal) and fail with
the up-to-date error when the running version is not older; with a
requested version, an exact (product id, version) match is required.
Then the chosen file is loaded in full (`scarlett2_read_firmware_file`,
modelled by the `load` parameter) and the loaded header's product id is
double-checked against the card's. -/
def check_firmware_selection (fws : List FoundFirmware) (card : SoundCard)
    (sel_ver : Nat) (load : Nat → Option FirmwareFile) :
    Except UpdateError FirmwareFile :=
  let chosen : Except UpdateError FoundFirmware :=
    if sel_ver = 0 then
      match get_latest_firmware fws card.pid with
      | none => .error .noFirmware
      | some ff =>
        if ff.firmware.firmware_version ≤ uint32_conv card.firmware_version then
          .error .upToDate
        else .ok ff
    else
      match get_firmware_for_version fws card.pid sel_ver with
      | none => .error .noMatchingVersion
      | some ff => .ok ff
  match chosen with
  | .error e => .error e
  | .ok ff =>
    match load ff.fn with
    | none => .error .loadFailed
    | some f =>
      if f.header.usb_pid ≠ card.pid then .error .pidMismatch
      else .ok f

/-- Exit status of `monitor_erase_progress`.  `noMoreInput` marks that
the supplied poll-response list ran out while the loop would have polled
again (the C loop blocks on the device instead). -/
inductive EraseOutcome
  | done
  | pollError (e : Int)
  | wentBackwards (last p : Int)
  | timedOut
  | noMoreInput
deriving Repr, DecidableEq

/-- The loop of `monitor_erase_progress`.  `i` is the loop counter:
the loop exits (timing out) once `i` reaches 10 at the top of the loop;
each poll consumes one element of `polls`; a negative poll result is
fatal; 255 is the done sentinel; a value above `last` advances progress
and sets `i = 0` (immediately re-incremented to 1 by the `for`
increment); a value below `last` aborts; an equal value only increments
`i`.  The second component is the unread remainder of the poll stream. -/
def monitor_go : List Int → Int → Nat → EraseOutcome × List Int
  | [], _, i => if 10 ≤ i then (.timedOut, []) else (.noMoreInput, [])
  | p :: rest, last, i =>
    if 10 ≤ i then (.timedOut, p :: rest)
    else if p < 0 then (.pollError p, rest)
    else if p = 255 then (.done, rest)
    else if last < p then monitor_go rest p 1
    else if p < last then (.wentBackwards last p, rest)
    else monitor_go rest last (i + 1)

/-- `monitor_erase_progress`: runs the poll loop from
`last_progress = 0`, `i = 0`. -/
def monitor_erase_progress (polls : List Int) : EraseOutcome × List Int :=
  monitor_go polls 0 0

/-- Exit status of the firmware-write loop in `update_firmware`. -/
inductive WriteOutcome
  | success
  | writeError (e : Int)
  | zeroWrite
  | noMoreInput
deriving Repr, DecidableEq

/-- Result of the firmware-write loop: its outcome, the final `offset`,
the progress percentages printed after each accepted chunk, and the
number of chunk writes issued to the device. -/
structure WriteResult where
  outcome : WriteOutcome
  offset : Nat
  reports : List Nat
  writesIssued : Nat
deriving Repr, DecidableEq

/-- The write loop of `update_firmware`: while `offset < len`, issue one
chunk write; a negative return is fatal, a zero return is fatal, a
positive return `r` advances `offset` by exactly `r` and prints
`offset * 100 / len` percent.  Each element of `resps` is one
`snd_hwdep_write` return value. -/
def update_go : List Int → Nat → Nat → WriteResult
  | [], offset, len =>
    if len ≤ offset then ⟨.success, offset, [], 0⟩
    else ⟨.noMoreInput, offset, [], 0⟩
  | r :: rest, offset, len =>
    if len ≤ offset then ⟨.success, offset, [], 0⟩
    else if r < 0 then ⟨.writeError r, offset, [], 1⟩
    else if r = 0 then ⟨.zeroWrite, offset, [], 1⟩
    else
      let res := update_go rest (offset + r.toNat) len
      ⟨res.outcome, res.offset, (offset + r.toNat) * 100 / len :: res.reports,
        res.writesIssued + 1⟩

/-- `update_firmware`'s loop on a payload of `len` bytes, from offset 0. -/
def update_firmware (resps : List Int) (len : Nat) : WriteResult :=
  update_go resps 0 len

/-- The destructive device commands of the update sequence (progress
polls and the protocol-version query are read-only and not listed). -/
inductive DevCmd
  | eraseConfig
  | eraseFirmware
  | writeChunk
  | reboot
deriving Repr, DecidableEq

/-- The device side of one update session: results the device hands back
to each call the tool makes, in order. -/
structure DevEnv where
  open_result : Int
  protocol_version : Int
  erase_config_result : Int
  config_polls : List Int
  erase_firmware_result : Int
  firmware_polls : List Int
  write_results : List Int
  reboot_result : Int
deriving Repr

/-- Modelled from the spec: `SCARLETT2_HWDEP_VERSION_MAJOR` lives in
scarlett2-ioctls.h, which is not under src/; per the spec the device
reports a (major, minor, sub-minor) version and the major component is
compared — modelled as bits 16..23 of the packed version word. -/
def hwdep_version_major (v : Int) : Nat := v.toNat / 65536 % 256

/-- `REQUIRED_HWDEP_VERSION_MAJOR` -/
def REQUIRED_HWDEP_VERSION_MAJOR : Nat := 1

/-- `open_card`: opens the hwdep device and validates the protocol
handshake: an exact match on the major version is required.  Issues no
destructive command. -/
def open_card (env : DevEnv) : Except UpdateError Unit :=
  if env.open_result < 0 then .error .openFailed
  else if env.protocol_version < 0 then .error .protoReadFailed
  else if hwdep_version_major env.protocol_version ≠ REQUIRED_HWDEP_VERSION_MAJOR then
    .error .unsupportedProtocol
  else .ok ()

/-- Mapping from a finished erase-progress monitor to the fate of the
operation (each non-done outcome is an `exit(EXIT_FAILURE)`). -/
def erase_outcome_result : EraseOutcome → Except UpdateError Unit
  | .done => .ok ()
  | .pollError _ => .error .pollFailed
  | .wentBackwards _ _ => .error .progressBackwards
  | .timedOut => .error .eraseTimeout
  | .noMoreInput => .error .eraseInputExhausted

/-- `reset_config` (after `open_card`): issue the erase-config command
(fatal on failure, but the command has been issued), then monitor. -/
def reset_config (env : DevEnv) : Except UpdateError Unit × List DevCmd :=
  if env.erase_config_result < 0 then (.error .eraseConfigFailed, [.eraseConfig])
  else (erase_outcome_result (monitor_erase_progress env.config_polls).1,
        [.eraseConfig])

/-- `erase_firmware` (after `open_card`): issue the erase-firmware
command, then monitor. -/
def erase_firmware (env : DevEnv) : Except UpdateError Unit × List DevCmd :=
  if env.erase_firmware_result < 0 then (.error .eraseFirmwareFailed, [.eraseFirmware])
  else (erase_outcome_result (monitor_erase_progress env.firmware_polls).1,
        [.eraseFirmware])

/-- The chunked firmware write as a device interaction: one `writeChunk`
command per loop iteration. -/
def update_firmware_run (env : DevEnv) (len : Nat) :
    Except UpdateError Unit × List DevCmd :=
  let res := update_firmware env.write_results len
  (match res.outcome with
   | .success => .ok ()
   | .writeError _ => .error .writeFailed
   | .zeroWrite => .error .zeroWrite
   | .noMoreInput => .error .writeInputExhausted,
   List.replicate res.writesIssued .writeChunk)

/-- `reboot_card` (after `open_card`): issue the reboot command. -/
def reboot_card (env : DevEnv) : Except UpdateError Unit × List DevCmd :=
  (if env.reboot_result < 0 then .error .rebootFailed else .ok (), [.reboot])

/-- The device phase of the `update` command, in `main`'s order:
`reset_config`, `erase_firmware`, `update_firmware`, `reboot_card`
(each of which first ensures the card is open; `open_card` runs the
handshake once).  Any failure stops the sequence; the trace collects the
destructive commands issued so far. -/
def run_update_device_phase (env : DevEnv) (len : Nat) :
    Except UpdateError Unit × List DevCmd :=
  match open_card env with
  | .error e => (.error e, [])
  | .ok _ =>
    let s1 := reset_config env
    match s1.1 with
    | .error e => (.error e, s1.2)
    | .ok _ =>
      let s2 := erase_firmware env
      match s2.1 with
      | .error e => (.error e, s1.2 ++ s2.2)
      | .ok _ =>
        let s3 := update_firmware_run env len
        match s3.1 with
        | .error e => (.error e, s1.2 ++ s2.2 ++ s3.2)
        | .ok _ =>
          let s4 := reboot_card env
          (s4.1, s1.2 ++ s2.2 ++ s3.2 ++ s4.2)

/-- `main`'s `update` branch: after `enum_cards` / `enum_firmwares`
(whose results are the `cards` and `fws` inputs; both are read-only
scans), run `check_card_selection`, then `check_firmware_selection`
(loading the chosen file via `scarlett2_read_firmware_file` on the
file's bytes), and only then the destructive device phase.  The second
component is the trace of destructive device commands issued. -/
def update_main (cards : List SoundCard) (fws : List FoundFirmware)
    (sel_card : Int) (sel_ver : Nat) (digest : List Nat → List Nat)
    (fileBytes : Nat → List Nat) (env : DevEnv) :
    Except UpdateError Unit × List DevCmd :=
  match check_card_selection cards sel_card with
  | .error e => (.error e, [])
  | .ok card =>
    match check_firmware_selection fws card sel_ver
        (fun fn => scarlett2_read_firmware_file digest (fileBytes fn)) with
    | .error e => (.error e, [])
    | .ok fw => run_update_device_phase env fw.header.firmware_length

/-!  ## Theorems  -/

/-- C2 (counterexample): a 52-byte header with the correct magic but
firmware version 0 and payload length 0 is accepted by header parsing,
refuting the claim that version > 0 and length > 0 are required. -/
theorem read_header_accepts_zero_version_and_length :
    read_header (MAGIC_STRING ++ [0x12, 0x35, 0x82, 0x11] ++ List.replicate 40 0) =
      some ⟨MAGIC_STRING, 0x1235, 0x8211, 0, 0, List.replicate 32 0⟩ := by
  decide

/-- C2 (amended): header parsing accepts a firmware file exactly when the
fixed-size 52-byte header region is fully present and the 8-byte magic
matches the fixed constant exactly; the firmware-version and
payload-length fields are not validated (zero values are accepted). -/
theorem read_header_isSome_iff (bytes : List Nat) :
    (read_header bytes).isSome = true ↔
      HEADER_SIZE ≤ bytes.length ∧ bytes.take 8 = MAGIC_STRING := by
  unfold read_header
  split_ifs with h1 h2
  · simp only [Option.isSome_none, Bool.false_eq_true, false_iff]
    intro h
    omega
  · simp only [Option.isSome_none, Bool.false_eq_true, false_iff]
    intro h
    exact h2 h.2
  · simp only [Option.isSome_some, true_iff]
    exact ⟨by omega, not_not.mp h2⟩

/-- C7: for every digest function and every input file, (a) whenever the
header parses but the digest of the payload differs from the stored hash,
the full-file parse returns nothing, and (b) a `FirmwareFile` is produced
only when the computed digest equals the stored hash byte-for-byte. -/
theorem read_firmware_file_integrity (digest : List Nat → List Nat)
    (bytes : List Nat) :
    (∀ h, read_header bytes = some h →
       digest ((bytes.drop HEADER_SIZE).take h.firmware_length) ≠ h.sha256 →
       scarlett2_read_firmware_file digest bytes = none) ∧
    (∀ f, scarlett2_read_firmware_file digest bytes = some f →
       digest f.firmware_data = f.header.sha256) := by
  unfold scarlett2_read_firmware_file
  constructor
  · intro h hh hne
    rw [hh]
    simp only
    split_ifs <;> rfl
  · intro f hf
    revert hf
    cases hh : read_header bytes with
    | none => intro hf; cases hf
    | some h =>
      simp only
      split_ifs with hlen hdig
      · intro hf; cases hf
      · intro hf; cases hf
      · intro hf
        cases hf
        exact not_not.mp hdig

/-- C7 (witness): a zero-length payload whose digest (here a digest
function returning all-ones) differs from the stored all-zero hash is
rejected even though the header itself parses. -/
theorem read_firmware_file_integrity_witness :
    scarlett2_read_firmware_file (fun _ => List.replicate 32 1)
      (MAGIC_STRING ++ [0x12, 0x35, 0x82, 0x11] ++ List.replicate 40 0) = none :=
  (read_firmware_file_integrity (fun _ => List.replicate 32 1)
      (MAGIC_STRING ++ [0x12, 0x35, 0x82, 0x11] ++ List.replicate 40 0)).1
    ⟨MAGIC_STRING, 0x1235, 0x8211, 0, 0, List.replicate 32 0⟩
    (by decide) (by decide)

/-- Helper: `add_found_firmware` preserves pairwise distinctness of the
(vendor, product, version) triples, since it only appends an entry whose
triple matches no cataloged entry. -/
theorem add_found_firmware_pairwise (fws : List FoundFirmware) (fn : Nat)
    (fw : FirmwareHeader)
    (h : fws.Pairwise (fun a b => same_triple a.firmware b.firmware = false)) :
    (add_found_firmware fws fn fw).Pairwise
      (fun a b => same_triple a.firmware b.firmware = false) := by
  unfold add_found_firmware
  split_ifs with h1 h2
  · exact h
  · exact h
  · rw [List.pairwise_append]
    refine ⟨h, List.pairwise_singleton _ _, ?_⟩
    intro a ha b hb
    rw [List.mem_singleton] at hb
    subst hb
    simp only [List.any_eq_true, not_exists, not_and] at h2
    exact Bool.eq_false_iff.mpr (h2 a ha)

/-- Helper: folding any scan sequence through `add_found_firmware` keeps
the catalog's triples pairwise distinct. -/
theorem scan_firmwares_fold_pairwise (entries : List (Nat × FirmwareHeader))
    (acc : List FoundFirmware)
    (h : acc.Pairwise (fun a b => same_triple a.firmware b.firmware = false)) :
    (entries.foldl (fun acc e => add_found_firmware acc e.1 e.2) acc).Pairwise
      (fun a b => same_triple a.firmware b.firmware = false) := by
  induction entries generalizing acc with
  | nil => exact h
  | cons e rest ih =>
    exact ih _ (add_found_firmware_pairwise acc e.1 e.2 h)

/-- C8: (a) cataloging an entry whose (vendor, product, version) triple
is already present leaves the catalog unchanged, regardless of the new
entry's file name; (b) hence after any scan sequence the catalog never
holds two entries with the same triple. -/
theorem add_found_firmware_dedup :
    (∀ (fws : List FoundFirmware) (fn : Nat) (fw : FirmwareHeader),
       (∃ f ∈ fws, same_triple f.firmware fw = true) →
       add_found_firmware fws fn fw = fws) ∧
    (∀ entries : List (Nat × FirmwareHeader),
       (scan_firmwares entries).Pairwise
         (fun a b => same_triple a.firmware b.firmware = false)) := by
  constructor
  · intro fws fn fw hex
    unfold add_found_firmware
    split_ifs with h1 h2
    · rfl
    · rfl
    · obtain ⟨f, hf, hsame⟩ := hex
      exact absurd (List.any_eq_true.mpr ⟨f, hf, hsame⟩) h2
  · intro entries
    exact scan_firmwares_fold_pairwise entries [] (List.Pairwise.nil)

/-- C8 (witness): a second file with the same (vendor, product, version)
triple but a different name, hash and length leaves the one-entry catalog
unchanged. -/
theorem add_found_firmware_dedup_witness :
    add_found_firmware
      [⟨0, ⟨MAGIC_STRING, 0x1235, 0x8211, 1605, 4, List.replicate 32 0⟩⟩] 1
      ⟨MAGIC_STRING, 0x1235, 0x8211, 1605, 7, List.replicate 32 1⟩ =
      [⟨0, ⟨MAGIC_STRING, 0x1235, 0x8211, 1605, 4, List.replicate 32 0⟩⟩] :=
  add_found_firmware_dedup.1 _ _ _
    ⟨⟨0, ⟨MAGIC_STRING, 0x1235, 0x8211, 1605, 4, List.replicate 32 0⟩⟩,
      by decide, by decide⟩

/-- The ordering the catalog actually satisfies after `enum_firmwares`:
primarily by the supported-table address rank of the product id — with
unknown product ids (NULL, rank 0) before all known ones — and
secondarily by firmware version descending. -/
def table_rank_version_le (a b : FoundFirmware) : Prop :=
  ptr_rank (get_device_for_pid a.firmware.usb_pid) <
      ptr_rank (get_device_for_pid b.firmware.usb_pid) ∨
    (ptr_rank (get_device_for_pid a.firmware.usb_pid) =
        ptr_rank (get_device_for_pid b.firmware.usb_pid) ∧
      b.firmware.firmware_version ≤ a.firmware.firmware_version)

/-- Helper: the comparator's non-positive cone is exactly the
rank-then-version-descending lexicographic order. -/
theorem catalog_order_iff (a b : FoundFirmware) :
    catalog_order a b ↔ table_rank_version_le a b := by
  unfold catalog_order found_firmware_cmp table_rank_version_le
  split_ifs <;> simp <;> omega

instance : IsTotal FoundFirmware catalog_order :=
  ⟨fun a b => by
    rw [catalog_order_iff, catalog_order_iff]
    unfold table_rank_version_le
    omega⟩

instance : IsTrans FoundFirmware catalog_order :=
  ⟨fun a b c hab hbc => by
    rw [catalog_order_iff] at hab hbc ⊢
    unfold table_rank_version_le at hab hbc ⊢
    omega⟩

/-- C3 (counterexample): a catalog holding one entry for a known product
id (0x8203, first in the supported table) and one for an unknown product
id (0x9999, not in the table) sorts the unknown entry *before* the known
one, refuting the claim that unknown product ids are placed after all
known ones. -/
theorem enum_firmwares_unknown_pid_sorts_first :
    enum_firmwares
        [⟨0, ⟨MAGIC_STRING, 0x1235, 0x8203, 5, 0, List.replicate 32 0⟩⟩,
         ⟨1, ⟨MAGIC_STRING, 0x1235, 0x9999, 5, 0, List.replicate 32 0⟩⟩] =
      [⟨1, ⟨MAGIC_STRING, 0x1235, 0x9999, 5, 0, List.replicate 32 0⟩⟩,
       ⟨0, ⟨MAGIC_STRING, 0x1235, 0x8203, 5, 0, List.replicate 32 0⟩⟩] ∧
    get_device_for_pid 0x8203 = some 0 ∧
    get_device_for_pid 0x9999 = none := by
  decide

/-- C3 (amended): the catalog after enumeration is a permutation of the
entries sorted primarily by the position of the product id in the
SupportedProduct table with all unknown product ids *before* every known
one (they compare as the NULL pointer, numerically lowest), and
secondarily by firmware version descending — which also interleaves
unknown-product entries among each other by version, rather than keeping
their pre-sort order. -/
theorem enum_firmwares_sorted (fws : List FoundFirmware) :
    (enum_firmwares fws).Perm fws ∧
      List.Sorted table_rank_version_le (enum_firmwares fws) :=
  ⟨List.perm_insertionSort catalog_order fws,
    (List.sorted_insertionSort catalog_order fws).imp
      fun h => (catalog_order_iff _ _).1 h⟩

/-- C5: with no requested firmware version, (a) an empty match for the
device's product id fails with the no-firmware-available error; (b) if
the candidate — the first catalog entry whose product id equals the
device's — exists and the device's running version is greater than or
equal to the candidate's version, the selector fails with the up-to-date
error instead of selecting; (c) the candidate returned by
`get_latest_firmware` is indeed the first entry with the device's
product id. -/
theorem check_firmware_selection_latest_policy :
    (∀ (fws : List FoundFirmware) (card : SoundCard)
       (load : Nat → Option FirmwareFile),
       get_latest_firmware fws card.pid = none →
       check_firmware_selection fws card 0 load = .error .noFirmware) ∧
    (∀ (fws : List FoundFirmware) (card : SoundCard)
       (load : Nat → Option FirmwareFile) (ff : FoundFirmware),
       get_latest_firmware fws card.pid = some ff →
       0 ≤ card.firmware_version → card.firmware_version < 4294967296 →
       (ff.firmware.firmware_version : Int) ≤ card.firmware_version →
       check_firmware_selection fws card 0 load = .error .upToDate) ∧
    (∀ (fws : List FoundFirmware) (pid : Nat) (ff : FoundFirmware),
       get_latest_firmware fws pid = some ff →
       ff.firmware.usb_pid = pid ∧
       ∃ pre post, fws = pre ++ ff :: post ∧
         ∀ x ∈ pre, x.firmware.usb_pid ≠ pid) := by
  refine ⟨?_, ?_, ?_⟩
  · intro fws card load h
    unfold check_firmware_selection
    rw [if_pos rfl, h]
  · intro fws card load ff h h0 hlt hle
    unfold check_firmware_selection
    rw [if_pos rfl, h]
    have hconv : ff.firmware.firmware_version ≤ uint32_conv card.firmware_version := by
      unfold uint32_conv
      omega
    simp [hconv]
  · intro fws pid ff h
    induction fws with
    | nil => cases h
    | cons hd tl ih =>
      unfold get_latest_firmware at h
      split_ifs at h with hpid
      · cases h
        exact ⟨hpid, [], tl, rfl, by intro x hx; cases hx⟩
      · obtain ⟨h1, pre, post, h2, h3⟩ := ih h
        refine ⟨h1, hd :: pre, post, by rw [h2]; rfl, ?_⟩
        intro x hx
        rcases List.mem_cons.mp hx with hx | hx
        · subst hx; exact hpid
        · exact h3 x hx

/-- C5 (witness): a device running version 1605 with only version 1605
cataloged yields the up-to-date error from the selector (the spec's §8
example). -/
theorem check_firmware_selection_latest_policy_witness :
    check_firmware_selection
      [⟨0, ⟨MAGIC_STRING, 0x1235, 0x8211, 1605, 0, List.replicate 32 0⟩⟩]
      ⟨0, 0x8211, 1605⟩ 0 (fun _ => none) = .error .upToDate :=
  check_firmware_selection_latest_policy.2.1 _ _ _
    ⟨0, ⟨MAGIC_STRING, 0x1235, 0x8211, 1605, 0, List.replicate 32 0⟩⟩
    (by decide) (by decide) (by decide) (by decide)

/-- C10: with an explicitly requested firmware version, (a) the selector
never fails with the up-to-date error — no comparison against the
running version is performed; (b) if an exact (product id, version)
catalog match exists and the file loads with the matching product id,
selection succeeds, with no hypothesis on the device's running version
(reinstall and downgrade are permitted). -/
theorem check_firmware_selection_explicit_version :
    (∀ (fws : List FoundFirmware) (card : SoundCard) (v : Nat)
       (load : Nat → Option FirmwareFile),
       v ≠ 0 →
       check_firmware_selection fws card v load ≠ .error .upToDate) ∧
    (∀ (fws : List FoundFirmware) (card : SoundCard) (v : Nat)
       (load : Nat → Option FirmwareFile) (ff : FoundFirmware)
       (f : FirmwareFile),
       v ≠ 0 →
       get_firmware_for_version fws card.pid v = some ff →
       load ff.fn = some f →
       f.header.usb_pid = card.pid →
       check_firmware_selection fws card v load = .ok f) := by
  constructor
  · intro fws card v load hv
    unfold check_firmware_selection
    rw [if_neg hv]
    cases h : get_firmware_for_version fws card.pid v with
    | none => intro hc; cases hc
    | some ff =>
      simp only
      cases hl : load ff.fn with
      | none => intro hc; cases hc
      | some f =>
        simp only
        split_ifs with hpid
        · intro hc; cases hc
        · intro hc; cases hc
  · intro fws card v load ff f hv hff hl hpid
    unfold check_firmware_selection
    rw [if_neg hv, hff]
    simp only
    rw [hl]
    simp only
    rw [if_neg (by rw [hpid]; exact fun h => h rfl)]

/-- C10 (witness): a device running version 1605 downgrades to an
explicitly requested version 1552 that is cataloged: selection succeeds
even though the requested version is older than the running one. -/
theorem check_firmware_selection_explicit_version_witness :
    check_firmware_selection
      [⟨0, ⟨MAGIC_STRING, 0x1235, 0x8211, 1552, 0, List.replicate 32 0⟩⟩]
      ⟨0, 0x8211, 1605⟩ 1552
      (fun _ => some ⟨⟨MAGIC_STRING, 0x1235, 0x8211, 1552, 0, List.replicate 32 0⟩, []⟩) =
      .ok ⟨⟨MAGIC_STRING, 0x1235, 0x8211, 1552, 0, List.replicate 32 0⟩, []⟩ :=
  check_firmware_selection_explicit_version.2 _ _ _ _
    ⟨0, ⟨MAGIC_STRING, 0x1235, 0x8211, 1552, 0, List.replicate 32 0⟩⟩
    ⟨⟨MAGIC_STRING, 0x1235, 0x8211, 1552, 0, List.replicate 32 0⟩, []⟩
    (by decide) (by decide) rfl (by decide)

/-- C6: (a) whenever the erase-progress monitor reads a value below the
running maximum `last` (with the loop still live, the read non-negative
and not the done sentinel), it aborts at once with the
went-backwards protocol violation and the rest of the poll stream is
never read; (b) the spec's example sequence 10, 25, 40, 30 aborts at the
fourth read with nothing further polled. -/
theorem monitor_aborts_on_backwards_progress :
    (∀ (p : Int) (rest : List Int) (last : Int) (i : Nat),
       i < 10 → 0 ≤ p → p ≠ 255 → p < last →
       monitor_go (p :: rest) last i = (.wentBackwards last p, rest)) ∧
    monitor_erase_progress [10, 25, 40, 30] = (.wentBackwards 40 30, []) := by
  constructor
  · intro p rest last i hi hp h255 hlt
    unfold monitor_go
    rw [if_neg (by omega), if_neg (by omega), if_neg h255,
      if_neg (by omega), if_pos hlt]
  · decide

/-- C6 (witness): a decreasing read with pending further polls aborts
immediately, leaving the pending polls unread. -/
theorem monitor_aborts_on_backwards_progress_witness :
    monitor_go [30, 77] 40 3 = (.wentBackwards 40 30, [77]) :=
  monitor_aborts_on_backwards_progress.1 30 [77] 40 3
    (by decide) (by decide) (by decide) (by decide)

/-- The stall budget the code actually grants, mirrored on the raw poll
stream: a stalled poll (equal to the running maximum, non-negative, not
the sentinel, not a decrease) is in budget while at least 2 budget units
remain and consumes one; an advancing poll resets the budget to 9.  The
monitor starts with budget 10, so at most nine consecutive stalled polls
are survivable from the start and at most eight after an advance. -/
def stall_budget_ok : List Int → Int → Nat → Bool
  | [], _, _ => true
  | p :: rest, last, b =>
    if p < 0 then true
    else if p = 255 then true
    else if last < p then stall_budget_ok rest p 9
    else if p < last then true
    else decide (2 ≤ b) && stall_budget_ok rest last (b - 1)

/-- The claim's stall window, mirrored on the raw poll stream: the
timeout fires only once ten consecutive stalled polls elapse, counted
the same way from the start and from each advance — so a budget of nine
survivable stalls per window, reset to nine by every advance. -/
def claim_stall_window_ok : List Int → Int → Nat → Bool
  | [], _, _ => true
  | p :: rest, last, b =>
    if p < 0 then true
    else if p = 255 then true
    else if last < p then claim_stall_window_ok rest p 9
    else if p < last then true
    else decide (1 ≤ b) && claim_stall_window_ok rest last (b - 1)

/-- Helper: once the loop counter has reached 10 the monitor times out
without reading anything further. -/
theorem monitor_go_at_budget (polls : List Int) (last : Int) (i : Nat)
    (h : 10 ≤ i) : monitor_go polls last i = (.timedOut, polls) := by
  cases polls with
  | nil => unfold monitor_go; rw [if_pos h]
  | cons p rest => unfold monitor_go; rw [if_pos h]

/-- Helper: a run of `k` stalled polls starting at loop counter `i` with
`i + k = 10` exhausts the counter and times out, leaving the rest of the
stream unread. -/
theorem monitor_go_stall_run (k : Nat) (last : Int) (rest : List Int) (i : Nat)
    (hik : i + k = 10) (h0 : 0 ≤ last) (h255 : last ≠ 255) :
    monitor_go (List.replicate k last ++ rest) last i = (.timedOut, rest) := by
  induction k generalizing i with
  | zero => exact monitor_go_at_budget rest last i (by omega)
  | succ k ih =>
    rw [List.replicate_succ, List.cons_append]
    unfold monitor_go
    rw [if_neg (by omega), if_neg (by omega), if_neg h255,
      if_neg (by omega), if_neg (by omega)]
    exact ih (i + 1) (by omega)

/-- C4 (counterexample): the poll sequence that advances on its first
poll, stalls for the next nine polls, and would advance again on its
eleventh poll — i.e. progress advances at least once per ten-poll stall
window, as witnessed by `claim_stall_window_ok` — nevertheless times
out, with the advancing eleventh poll never read; this refutes both the
exactly-ten-consecutive-stalls timeout condition and the claimed
never-times-out guarantee. -/
theorem monitor_times_out_within_claimed_window :
    claim_stall_window_ok [1, 1, 1, 1, 1, 1, 1, 1, 1, 1, 2, 255] 0 9 = true ∧
    monitor_erase_progress [1, 1, 1, 1, 1, 1, 1, 1, 1, 1, 2, 255] =
      (.timedOut, [2, 255]) := by
  decide

/-- C4 (amended): the stall counter is the loop index, incremented on
every poll and set to zero on an advancing poll just before the loop
increment runs — so the timeout fires after ten consecutive stalled
polls from the start, but already after nine consecutive stalled polls
following an advance.  Concretely: (a) every poll stream within the
code's stall budget (`stall_budget_ok`, budget 10 at start, 9 after each
advance, one unit above the survivable stall count) never times out;
(b) an advancing poll followed by nine stalled polls times out with the
rest unread; (c) ten stalled polls from the start time out with the rest
unread. -/
theorem monitor_stall_budget :
    (∀ (polls : List Int) (last : Int) (i : Nat),
       i < 10 → stall_budget_ok polls last (10 - i) = true →
       (monitor_go polls last i).1 ≠ .timedOut) ∧
    (∀ (p last : Int) (rest : List Int) (i : Nat),
       i < 10 → 0 ≤ p → p ≠ 255 → last < p →
       monitor_go (p :: (List.replicate 9 p ++ rest)) last i =
         (.timedOut, rest)) ∧
    (∀ (last : Int) (rest : List Int), 0 ≤ last → last ≠ 255 →
       monitor_go (List.replicate 10 last ++ rest) last 0 =
         (.timedOut, rest)) := by
  refine ⟨?_, ?_, ?_⟩
  · intro polls
    induction polls with
    | nil =>
      intro last i hi _
      unfold monitor_go
      rw [if_neg (by omega)]
      intro hc; cases hc
    | cons p rest ih =>
      intro last i hi hok
      unfold monitor_go
      unfold stall_budget_ok at hok
      rw [if_neg (by omega)]
      split_ifs with hneg h255 hadv hback
      · intro hc; cases hc
      · intro hc; cases hc
      · rw [if_neg hneg, if_neg h255, if_pos hadv] at hok
        exact ih p 1 (by omega) (by simpa using hok)
      · intro hc; cases hc
      · rw [if_neg hneg, if_neg h255, if_neg hadv, if_neg hback] at hok
        rw [Bool.and_eq_true, decide_eq_true_eq] at hok
        exact ih last (i + 1) (by omega)
          (by have h2 := hok.2; have h1 := hok.1
              have : 10 - (i + 1) = 10 - i - 1 := by omega
              rw [this]; exact h2)
  · intro p last rest i hi hp h255 hadv
    unfold monitor_go
    rw [if_neg (by omega), if_neg (by omega), if_neg h255, if_pos hadv]
    exact monitor_go_stall_run 9 p rest 1 (by omega) hp h255
  · intro last rest h0 h255
    exact monitor_go_stall_run 10 last rest 0 (by omega) h0 h255

/-- C4 (witness): a stream that stalls three times, then advances, then
reports done stays within the budget and does not time out; and concrete
instances of the sharp timeout bounds: nine stalls right after an
advance time out, as do ten stalls from the start. -/
theorem monitor_stall_budget_witness :
    (monitor_go [0, 0, 0, 1, 255] 0 0).1 ≠ .timedOut ∧
    monitor_go [1, 1, 1, 1, 1, 1, 1, 1, 1, 1] 0 0 = (.timedOut, []) ∧
    monitor_go [0, 0, 0, 0, 0, 0, 0, 0, 0, 0, 255] 0 0 = (.timedOut, [255]) :=
  ⟨monitor_stall_budget.1 [0, 0, 0, 1, 255] 0 0 (by decide) (by decide),
   monitor_stall_budget.2.1 1 0 [] 0 (by decide) (by decide) (by decide) (by decide),
   monitor_stall_budget.2.2 0 [255] (by decide) (by decide)⟩

/-- The external contract of `snd_hwdep_write`: a positive return value
never exceeds the number of bytes requested (`len - offset` at each
call).  Mirrored on the response stream. -/
def bounded_writes : List Int → Nat → Nat → Bool
  | [], _, _ => true
  | r :: rest, offset, len =>
    if len ≤ offset then true
    else if r ≤ 0 then true
    else decide (r.toNat ≤ len - offset) && bounded_writes rest (offset + r.toNat) len

/-- C9: the chunked firmware-write loop: (a) a negative chunk-write
return with bytes still to send is fatal after exactly that one write,
with no progress reported for it; (b) a zero-byte acceptance likewise;
(c) a positive acceptance `r` advances the offset by exactly `r` and
reports `100 * transferred / length` percent before continuing;
(d) when every chunk response honours the never-more-than-requested
write contract and the loop finishes successfully, the final offset
equals the full payload length exactly. -/
theorem update_firmware_chunk_loop :
    (∀ (r : Int) (rest : List Int) (offset len : Nat),
       offset < len → r < 0 →
       update_go (r :: rest) offset len = ⟨.writeError r, offset, [], 1⟩) ∧
    (∀ (r : Int) (rest : List Int) (offset len : Nat),
       offset < len → r = 0 →
       update_go (r :: rest) offset len = ⟨.zeroWrite, offset, [], 1⟩) ∧
    (∀ (r : Int) (rest : List Int) (offset len : Nat),
       offset < len → 0 < r →
       update_go (r :: rest) offset len =
         ⟨(update_go rest (offset + r.toNat) len).outcome,
          (update_go rest (offset + r.toNat) len).offset,
          (offset + r.toNat) * 100 / len ::
            (update_go rest (offset + r.toNat) len).reports,
          (update_go rest (offset + r.toNat) len).writesIssued + 1⟩) ∧
    (∀ (resps : List Int) (offset len : Nat),
       offset ≤ len → bounded_writes resps offset len = true →
       (update_go resps offset len).outcome = .success →
       (update_go resps offset len).offset = len) := by
  refine ⟨?_, ?_, ?_, ?_⟩
  · intro r rest offset len ho hr
    unfold update_go
    rw [if_neg (by omega), if_pos hr]
  · intro r rest offset len ho hr
    unfold update_go
    rw [if_neg (by omega), if_neg (by omega), if_pos hr]
  · intro r rest offset len ho hr
    conv_lhs => unfold update_go
    rw [if_neg (by omega), if_neg (by omega), if_neg (by omega)]
  · intro resps
    induction resps with
    | nil =>
      intro offset len hol _ hsucc
      unfold update_go at hsucc ⊢
      split_ifs at hsucc ⊢ with h
      show offset = len
      omega
    | cons r rest ih =>
      intro offset len hol hb hsucc
      unfold update_go at hsucc ⊢
      unfold bounded_writes at hb
      split_ifs at hsucc ⊢ with h1 h2 h3
      · show offset = len
        omega
      · rw [if_neg h1, if_neg (by omega)] at hb
        rw [Bool.and_eq_true, decide_eq_true_eq] at hb
        have hs2 : (update_go rest (offset + r.toNat) len).outcome = .success := hsucc
        show (update_go rest (offset + r.toNat) len).offset = len
        exact ih (offset + r.toNat) len (by omega) hb.2 hs2

/-- C9 (witness): a payload of 10 bytes written in accepted chunks of
3, 4 and 3 bytes ends the loop with the offset equal to the payload
length; and a zero acceptance and a negative return are each fatal after
exactly the failing write. -/
theorem update_firmware_chunk_loop_witness :
    (update_go [3, 4, 3] 0 10).offset = 10 ∧
    update_go [0] 7 10 = ⟨.zeroWrite, 7, [], 1⟩ ∧
    update_go [-5] 7 10 = ⟨.writeError (-5), 7, [], 1⟩ :=
  ⟨update_firmware_chunk_loop.2.2.2 [3, 4, 3] 0 10 (by decide) (by decide)
     (by decide),
   update_firmware_chunk_loop.2.1 0 [] 7 10 (by decide) (by decide),
   update_firmware_chunk_loop.1 (-5) [] 7 10 (by decide) (by decide)⟩

/-- C1: in `main`'s `update` branch, (a) a failure of the card-selection
step yields that error with an empty device-command trace; (b) a failure
anywhere in `check_firmware_selection` — version selection, the full
load with hash verification, or the product-id double-check of the
freshly loaded header — likewise yields that error with an empty trace;
(c) conversely, whenever the trace of destructive device commands is
nonempty, both setup steps succeeded.  So every setup error aborts the
update before any reset-config, erase, write or reboot command is
issued. -/
theorem update_setup_errors_block_device_commands
    (cards : List SoundCard) (fws : List FoundFirmware) (sel_card : Int)
    (sel_ver : Nat) (digest : List Nat → List Nat)
    (fileBytes : Nat → List Nat) (env : DevEnv) :
    (∀ e, check_card_selection cards sel_card = .error e →
       update_main cards fws sel_card sel_ver digest fileBytes env =
         (.error e, [])) ∧
    (∀ e card, check_card_selection cards sel_card = .ok card →
       check_firmware_selection fws card sel_ver
         (fun fn => scarlett2_read_firmware_file digest (fileBytes fn)) =
           .error e →
       update_main cards fws sel_card sel_ver digest fileBytes env =
         (.error e, [])) ∧
    ((update_main cards fws sel_card sel_ver digest fileBytes env).2 ≠ [] →
       ∃ card fw, check_card_selection cards sel_card = .ok card ∧
         check_firmware_selection fws card sel_ver
           (fun fn => scarlett2_read_firmware_file digest (fileBytes fn)) =
             .ok fw) := by
  refine ⟨?_, ?_, ?_⟩
  · intro e hc
    unfold update_main
    rw [hc]
  · intro e card hc hf
    unfold update_main
    rw [hc]
    simp only
    rw [hf]
  · intro hne
    unfold update_main at hne
    revert hne
    cases hc : check_card_selection cards sel_card with
    | error e => intro hne; exact absurd rfl hne
    | ok card =>
      simp only
      cases hf : check_firmware_selection fws card sel_ver
          (fun fn => scarlett2_read_firmware_file digest (fileBytes fn)) with
      | error e => intro hne; exact absurd rfl hne
      | ok fw => intro _; exact ⟨card, fw, rfl, hf⟩

/-- C1 (witness): a device with product id 0x8211 whose selected catalog
entry loads as a file with product id 0x8210 (the header parses and the
hash verifies, so the load itself succeeds) aborts the update with the
product-id mismatch error and an empty device-command trace — no device
command is issued. -/
theorem update_setup_errors_block_device_commands_witness :
    update_main [⟨0, 0x8211, 1535⟩]
      [⟨0, ⟨MAGIC_STRING, 0x1235, 0x8211, 1605, 0, List.replicate 32 0⟩⟩]
      (-1) 0 (fun _ => List.replicate 32 0)
      (fun _ => MAGIC_STRING ++ [0x12, 0x35, 0x82, 0x10, 0, 0, 6, 69] ++
        [0, 0, 0, 0] ++ List.replicate 32 0)
      ⟨0, 65536, 0, [255], 0, [255], [1], 0⟩ =
      (.error .pidMismatch, []) :=
  (update_setup_errors_block_device_commands [⟨0, 0x8211, 1535⟩]
      [⟨0, ⟨MAGIC_STRING, 0x1235, 0x8211, 1605, 0, List.replicate 32 0⟩⟩]
      (-1) 0 (fun _ => List.replicate 32 0)
      (fun _ => MAGIC_STRING ++ [0x12, 0x35, 0x82, 0x10, 0, 0, 6, 69] ++
        [0, 0, 0, 0] ++ List.replicate 32 0)
      ⟨0, 65536, 0, [255], 0, [255], [1], 0⟩).2.1
    .pidMismatch ⟨0, 0x8211, 1535⟩ (by rfl) (by rfl)

end Scarlett2
